import Mathlib

/-!
Shallow embedding of the format-tiered object normalizer and tool-layer
validation logic of the spotify_mcp repository
(src/spotify_mcp/services/spotify_service.py, src/spotify_mcp/models/models.py,
src/spotify_mcp/tools/analysis.py, src/spotify_mcp/tools/library.py).

JSON payloads from the upstream API are modelled by `JVal`; Python dict
access semantics (`d[k]` raising KeyError, `d.get(k)` returning None,
truthiness) are modelled explicitly.  Since JSON null is represented by the
Python value None, an absent key and a null value both map to `Option.none`
on the Python side; `JVal.null` only appears inside stored payloads.
-/

namespace SpotifyMCP

/-- A JSON value as received from the upstream API. Numbers are modelled as
integers; no claim in scope depends on float arithmetic. -/
inductive JVal where
  | null : JVal
  | b : Bool → JVal
  | n : Int → JVal
  | s : String → JVal
  | arr : List JVal → JVal
  | obj : List (String × JVal) → JVal
deriving Repr

namespace JVal

/-- Python key membership test on a dict, as in the expression
(key in results). Non-dict values have no string keys. -/
def hasKey : JVal → String → Bool
  | .obj kvs, k => kvs.any (fun p => p.1 == k)
  | _, _ => false

/-- Raw association-list lookup on a dict value. -/
def find? : JVal → String → Option JVal
  | .obj kvs, k => (kvs.find? (fun p => p.1 == k)).map Prod.snd
  | _, _ => none

/-- Python d.get(k): returns None when d lacks the key or the stored value
is JSON null (JSON null is the Python value None). -/
def pyGet (d : JVal) (k : String) : Option JVal :=
  match d.find? k with
  | some .null => none
  | some v => some v
  | none => none

/-- Python d.get(k, dflt): returns the stored JSON value, or dflt when the
key is absent. -/
def pyGetD (d : JVal) (k : String) (dflt : JVal) : JVal :=
  match d.find? k with
  | some v => v
  | none => dflt

/-- Python d[k]: raises KeyError when the key is missing, TypeError when d
is not a dict; a stored JSON null reads back as the Python value None. -/
def pyIndex (d : JVal) (k : String) : Except String (Option JVal) :=
  match d with
  | .obj _ =>
    match d.find? k with
    | some .null => .ok none
    | some v => .ok (some v)
    | none => .error ("KeyError: " ++ k)
  | _ => .error "TypeError: value is not subscriptable by string"

/-- Python truthiness of a value stored in a JSON payload. -/
def truthy : JVal → Bool
  | .null => false
  | .b x => x
  | .n x => x != 0
  | .s x => !(x.isEmpty)
  | .arr xs => !xs.isEmpty
  | .obj kvs => !kvs.isEmpty

/-- Python iteration (for x in v): lists yield their elements, dicts yield
their keys, strings yield their characters; other values raise TypeError. -/
def pyIter : JVal → Except String (List JVal)
  | .arr xs => .ok xs
  | .obj kvs => .ok (kvs.map (fun p => .s p.1))
  | .s x => .ok (x.data.map (fun c => .s c.toString))
  | _ => .error "TypeError: value is not iterable"

end JVal

/-- Python truthiness of an optional value (None is falsy). -/
def pyTruthy : Option JVal → Bool
  | none => false
  | some v => v.truthy

/-- Python str.lower(), character by character (the format and enum values
in scope are ASCII). -/
def pyLower (s : String) : String := ⟨s.data.map Char.toLower⟩

/-- Splitting a character list on a separator character; the empty list
yields one empty group, matching Python str.split with an explicit
separator. -/
def splitOnChar (sep : Char) : List Char → List (List Char)
  | [] => [[]]
  | c :: rest =>
    match splitOnChar sep rest with
    | [] => [[]]
    | g :: gs => if c = sep then [] :: g :: gs else (c :: g) :: gs

/-- Python s.split(sep) for a single-character separator. -/
def pySplit (s : String) (sep : Char) : List String :=
  (splitOnChar sep s.data).map (fun l => ⟨l⟩)

/-- Python str.strip(): remove leading and trailing whitespace. -/
def pyStrip (s : String) : String :=
  ⟨(((s.data.dropWhile Char.isWhitespace).reverse.dropWhile
      Char.isWhitespace).reverse)⟩

/-- models.py DataFormat: fidelity tiers for API responses. -/
inductive DataFormat where
  | minimal
  | compact
  | full
  | raw
deriving DecidableEq, Repr

namespace DataFormat

/-- The string value of each DataFormat enum member. -/
def value : DataFormat → String
  | .minimal => "minimal"
  | .compact => "compact"
  | .full => "full"
  | .raw => "raw"

/-- Declaration order of the DataFormat members. -/
def members : List DataFormat := [.minimal, .compact, .full, .raw]

/-- models.py CaseInsensitiveStrEnum applied to DataFormat: the enum call
DataFormat(s) first tries an exact value match, then the case-insensitive
fallback implemented by CaseInsensitiveStrEnum with a lowercase comparison
of both sides; unmatched strings raise ValueError, modelled as none. -/
def fromString (s : String) : Option DataFormat :=
  match members.find? (fun f => f.value == s) with
  | some f => some f
  | none => members.find? (fun f => pyLower f.value == pyLower s)

end DataFormat

/-- models.py SpotifyObjectType. -/
inductive SpotifyObjectType where
  | track
  | artist
  | album
  | playlist
  | show
  | episode
  | user
deriving DecidableEq, Repr

/-- The string value of each SpotifyObjectType enum member. -/
def SpotifyObjectType.value : SpotifyObjectType → String
  | .track => "track"
  | .artist => "artist"
  | .album => "album"
  | .playlist => "playlist"
  | .show => "show"
  | .episode => "episode"
  | .user => "user"

/-- The base_data dict built by SpotifyService._parse_artist: every artist
field value is a plain payload value (possibly the Python value None). -/
abbrev ArtistData := List (String × Option JVal)

/-- A value stored in the base_data dict of SpotifyService._parse_album:
either a plain payload value or the list of nested minimal artists. -/
inductive AlbumFV where
  | plain : Option JVal → AlbumFV
  | artists : List ArtistData → AlbumFV
deriving Repr

/-- The base_data dict built by SpotifyService._parse_album. -/
abbrev AlbumData := List (String × AlbumFV)

/-- A value stored in the base_data dict of SpotifyService._parse_track:
a plain payload value, the nested minimal artist list, or the nested
minimal album. -/
inductive TrackFV where
  | plain : Option JVal → TrackFV
  | artists : List ArtistData → TrackFV
  | album : Option AlbumData → TrackFV
deriving Repr

/-- The base_data dict built by SpotifyService._parse_track. -/
abbrev TrackData := List (String × TrackFV)

/-- The base_data dict built by SpotifyService._parse_playlist: every
playlist field value is a plain payload value. -/
abbrev PlaylistData := List (String × Option JVal)

/-- SpotifyService._parse_artist: builds the MINIMAL field set from the raw
payload (required accesses raise on a missing key), then appends the
COMPACT-tier and FULL-tier fields when the format asks for them. -/
def parseArtist (d : JVal) (format : DataFormat) : Except String ArtistData := do
  let id ← d.pyIndex "id"
  let name ← d.pyIndex "name"
  let uri ← d.pyIndex "uri"
  let href ← d.pyIndex "href"
  let base : ArtistData :=
    [("id", id), ("name", name), ("uri", uri), ("href", href),
     ("external_urls", d.pyGet "external_urls")]
  let base := if format = .compact ∨ format = .full then
      base ++ [("images", d.pyGet "images"), ("popularity", d.pyGet "popularity")]
    else base
  let base := if format = .full then
      base ++ [("genres", d.pyGet "genres"), ("followers", d.pyGet "followers")]
    else base
  pure base

/-- SpotifyService._parse_album: the MINIMAL field set includes the nested
artist list, each entry normalized by _parse_artist at MINIMAL. -/
def parseAlbum (d : JVal) (format : DataFormat) : Except String AlbumData := do
  let id ← d.pyIndex "id"
  let name ← d.pyIndex "name"
  let uri ← d.pyIndex "uri"
  let href ← d.pyIndex "href"
  let rawArtists ← (d.pyGetD "artists" (.arr [])).pyIter
  let arts ← rawArtists.mapM (fun a => parseArtist a .minimal)
  let base : AlbumData :=
    [("id", .plain id), ("name", .plain name), ("uri", .plain uri), ("href", .plain href),
     ("external_urls", .plain (d.pyGet "external_urls")),
     ("artists", .artists arts)]
  let base := if format = .compact ∨ format = .full then
      base ++ [("images", AlbumFV.plain (d.pyGet "images")),
        ("album_type", AlbumFV.plain (d.pyGet "album_type")),
        ("total_tracks", AlbumFV.plain (d.pyGet "total_tracks")),
        ("release_date", AlbumFV.plain (d.pyGet "release_date"))]
    else base
  let base := if format = .full then
      base ++ [("release_date_precision", AlbumFV.plain (d.pyGet "release_date_precision")),
        ("genres", AlbumFV.plain (d.pyGet "genres")),
        ("popularity", AlbumFV.plain (d.pyGet "popularity")),
        ("external_ids", AlbumFV.plain (d.pyGet "external_ids"))]
    else base
  pure base

/-- The conditional expression computing the album entry of the track
base_data at COMPACT/FULL: _parse_album(track_data[\x22album\x22], MINIMAL) if
track_data.get(\x22album\x22) else None. -/
def trackAlbumField (d : JVal) : Except String (Option AlbumData) :=
  match d.pyGet "album" with
  | some av =>
    if av.truthy then do
      let al ← parseAlbum av .minimal
      pure (some al)
    else pure none
  | none => pure none

/-- SpotifyService._parse_track: MINIMAL fields include the nested artist
list at MINIMAL; at COMPACT/FULL the album field is the nested album
normalized at MINIMAL when the raw album value is truthy, else None. -/
def parseTrack (d : JVal) (format : DataFormat) : Except String TrackData := do
  let id ← d.pyIndex "id"
  let name ← d.pyIndex "name"
  let uri ← d.pyIndex "uri"
  let href ← d.pyIndex "href"
  let rawArtists ← (d.pyGetD "artists" (.arr [])).pyIter
  let arts ← rawArtists.mapM (fun a => parseArtist a .minimal)
  let base : TrackData :=
    [("id", .plain id), ("name", .plain name), ("uri", .plain uri), ("href", .plain href),
     ("external_urls", .plain (d.pyGet "external_urls")),
     ("artists", .artists arts)]
  let base ←
    if format = .compact ∨ format = .full then do
      let albumField ← trackAlbumField d
      pure (base ++ [("album", TrackFV.album albumField),
        ("duration_ms", TrackFV.plain (d.pyGet "duration_ms")),
        ("explicit", TrackFV.plain (d.pyGet "explicit")),
        ("popularity", TrackFV.plain (d.pyGet "popularity")),
        ("preview_url", TrackFV.plain (d.pyGet "preview_url"))])
    else pure base
  let base := if format = .full then
      base ++ [("track_number", TrackFV.plain (d.pyGet "track_number")),
        ("disc_number", TrackFV.plain (d.pyGet "disc_number")),
        ("is_local", TrackFV.plain (d.pyGet "is_local")),
        ("external_ids", TrackFV.plain (d.pyGet "external_ids"))]
    else base
  pure base

/-- SpotifyService._parse_playlist. -/
def parsePlaylist (d : JVal) (format : DataFormat) : Except String PlaylistData := do
  let id ← d.pyIndex "id"
  let name ← d.pyIndex "name"
  let uri ← d.pyIndex "uri"
  let href ← d.pyIndex "href"
  let base : PlaylistData :=
    [("id", id), ("name", name), ("uri", uri), ("href", href),
     ("external_urls", d.pyGet "external_urls")]
  let base := if format = .compact ∨ format = .full then
      base ++ [("images", d.pyGet "images"), ("description", d.pyGet "description"),
        ("owner", d.pyGet "owner"), ("public", d.pyGet "public"),
        ("collaborative", d.pyGet "collaborative"), ("tracks", d.pyGet "tracks")]
    else base
  let base := if format = .full then
      base ++ [("followers", d.pyGet "followers"), ("snapshot_id", d.pyGet "snapshot_id")]
    else base
  pure base

/-- The result of SpotifyService._parse_object: either a typed domain
object (the base_data it was constructed from) or the raw payload
(RAW format, unsupported object type, or parse-failure fallback). -/
inductive Parsed where
  | raw : JVal → Parsed
  | track : TrackData → Parsed
  | artist : ArtistData → Parsed
  | album : AlbumData → Parsed
  | playlist : PlaylistData → Parsed
deriving Repr

/-- SpotifyService._parse_object: RAW returns the payload unmodified;
otherwise dispatch on the object type; any exception inside a builder is
caught and the raw payload is returned unmodified (fault isolation). -/
def parseObject (d : JVal) (ty : SpotifyObjectType) (format : DataFormat) : Parsed :=
  if format = .raw then .raw d
  else
    match ty with
    | .track =>
      match parseTrack d format with
      | .ok t => .track t
      | .error _ => .raw d
    | .artist =>
      match parseArtist d format with
      | .ok a => .artist a
      | .error _ => .raw d
    | .album =>
      match parseAlbum d format with
      | .ok a => .album a
      | .error _ => .raw d
    | .playlist =>
      match parsePlaylist d format with
      | .ok p => .playlist p
      | .error _ => .raw d
    | _ => .raw d

/-- The per-item normalization loop used by the batch endpoints, e.g. the
list comprehension in SpotifyService.search_music lines 77 to 80. -/
def batchParse (items : List JVal) (ty : SpotifyObjectType) (format : DataFormat) :
    List Parsed :=
  items.map (fun it => parseObject it ty format)

/-- Python indexing v[k] applied to a value that may be the Python value
None (results of a previous pyIndex). -/
def pyIndexO : Option JVal → String → Except String (Option JVal)
  | some v, k => v.pyIndex k
  | none, _ => .error "TypeError: NoneType is not subscriptable"

/-- Python iteration over a value that may be the Python value None. -/
def pyIterO : Option JVal → Except String (List JVal)
  | some v => v.pyIter
  | none => .error "TypeError: NoneType is not iterable"

/-- Python integer addition operand extraction: total_results += total
requires a numeric value (Python bool is an int subtype). -/
def pyAsInt : Option JVal → Except String Int
  | some (.n x) => .ok x
  | some (.b x) => .ok (if x then 1 else 0)
  | _ => .error "TypeError: unsupported operand type for +="

/-- Python dict assignment response_data[key] = v: overwrite in place when
the key exists, else append (keys are unique, as in a Python dict). -/
def dictSet {α : Type} : List (String × α) → String → α → List (String × α)
  | [], k, v => [(k, v)]
  | p :: rest, k, v =>
    if p.1 == k then (k, v) :: rest else p :: dictSet rest k v

/-- Lookup in the assembled response_data dict. -/
def dictGet {α : Type} (l : List (String × α)) (k : String) : Option α :=
  (l.find? (fun p => p.1 == k)).map Prod.snd

/-- models.py SearchResponse: one optional slot per named object type plus
the summed total and the format used.  Pydantic revalidation of slot items
against the Track/Artist/Album/Playlist schemas is outside this model;
items are stored as the parser produced them. -/
structure SearchResponse where
  tracks : Option (List Parsed) := none
  artists : Option (List Parsed) := none
  albums : Option (List Parsed) := none
  playlists : Option (List Parsed) := none
  total_results : Int
  format_used : DataFormat
deriving Repr

/-- One iteration of the per-type loop in SpotifyService.search_music:
when the pluralized key is present in the upstream results, read its items
and advertised total and normalize each item at the requested format. -/
def searchStep (results : JVal) (ty : SpotifyObjectType) (format : DataFormat) :
    Except String (Option (List Parsed × Int)) :=
  let key := ty.value ++ "s"
  if results.hasKey key then do
    let sub ← results.pyIndex key
    let itemsV ← pyIndexO sub "items"
    let items ← pyIterO itemsV
    let totalV ← pyIndexO sub "total"
    let total ← pyAsInt totalV
    pure (some (items.map (fun it => parseObject it ty format), total))
  else pure none

/-- The full per-type loop of SpotifyService.search_music, threading the
response_data dict and the running total_results sum. -/
def searchGo (results : JVal) (format : DataFormat) :
    List SpotifyObjectType → List (String × List Parsed) → Int →
    Except String (List (String × List Parsed) × Int)
  | [], data, tot => pure (data, tot)
  | ty :: rest, data, tot => do
    match ← searchStep results ty format with
    | some (parsed, t) =>
      searchGo results format rest (dictSet data (ty.value ++ "s") parsed) (tot + t)
    | none => searchGo results format rest data tot

/-- SpotifyService.search_music result assembly, given the upstream search
results payload: loop over the requested types, then construct the
SearchResponse from the named slots and the summed totals. -/
def searchMusic (types : List SpotifyObjectType) (format : DataFormat)
    (results : JVal) : Except String SearchResponse := do
  let (data, tot) ← searchGo results format types [] 0
  pure { tracks := dictGet data "tracks", artists := dictGet data "artists",
         albums := dictGet data "albums", playlists := dictGet data "playlists",
         total_results := tot, format_used := format }

/-- The fields the AudioFeatures pydantic model requires; a features dict
missing one of them fails model validation. -/
def audioFeaturesRequiredKeys : List String :=
  ["id", "danceability", "energy", "key", "loudness", "mode", "speechiness",
   "acousticness", "instrumentalness", "liveness", "valence", "tempo",
   "duration_ms", "time_signature"]

/-- AudioFeatures(**result): accepts the features dict when every required
field is present and non-null (field types are not further modelled). -/
def mkAudioFeatures (v : JVal) : Except String JVal :=
  if audioFeaturesRequiredKeys.all (fun k => (v.pyGet k).isSome) then .ok v
  else .error "ValidationError"

/-- SpotifyService.get_track_audio_features applied to the upstream reply:
for result in results: if result: features.append(AudioFeatures(**result)).
Falsy entries (the Python value None, in particular) are skipped. -/
def getTrackAudioFeatures : List (Option JVal) → Except String (List JVal)
  | [] => .ok []
  | none :: rest => getTrackAudioFeatures rest
  | some v :: rest =>
    if v.truthy then do
      let f ← mkAudioFeatures v
      let fs ← getTrackAudioFeatures rest
      pure (f :: fs)
    else getTrackAudioFeatures rest

/-- Error categories surfaced by the tool layer: ValueError becomes an
HTTP 400 validation failure, any other exception an HTTP 500. -/
inductive ToolError where
  | validation : String → ToolError
  | internal : String → ToolError
deriving Repr, DecidableEq

/-- tools/analysis.py spotify_get_track_audio_features: rejects more than
100 track ids before calling upstream; the returned Bool records whether
the upstream call was attempted. -/
def audioFeaturesTool (track_ids : List String)
    (upstream : List String → List (Option JVal)) :
    Except ToolError (List JVal) × Bool :=
  if track_ids.length > 100 then
    (.error (.validation "Maximum 100 track IDs allowed per request"), false)
  else
    match getTrackAudioFeatures (upstream track_ids) with
    | .ok fs => (.ok fs, true)
    | .error e => (.error (.internal ("Failed to get audio features: " ++ e)), true)

/-- Modelled from the spec: parse_comma_separated_list is imported from
src/spotify_mcp/dependencies.py by the library tools, but its definition is
absent from src/.  Per the spec, an identifier list parameter accepted as a
delimited string is split on commas and each element trimmed of whitespace
before use; entries left empty are dropped, so a string carrying no
identifier yields the empty list, which the callers reject as a
ValidationError (spec sections 6 and 7). -/
def parse_comma_separated_list (s : String) : List String :=
  ((pySplit s ',').map pyStrip).filter (fun x => !x.isEmpty)

/-- tools/library.py spotify_save_tracks: parse the delimited id string,
reject an empty list and more than 50 ids, otherwise proceed to the
upstream save with exactly the parsed list. -/
def saveTracksTool (track_ids : String) : Except ToolError (List String) :=
  let l := parse_comma_separated_list track_ids
  if l.isEmpty then .error (.validation "At least one track ID is required")
  else if l.length > 50 then
    .error (.validation "Maximum 50 track IDs allowed per request")
  else .ok l

/-- tools/library.py spotify_follow_artists: same validation shape as
spotify_save_tracks, over artist ids. -/
def followArtistsTool (artist_ids : String) : Except ToolError (List String) :=
  let l := parse_comma_separated_list artist_ids
  if l.isEmpty then .error (.validation "At least one artist ID is required")
  else if l.length > 50 then
    .error (.validation "Maximum 50 artist IDs allowed per request")
  else .ok l

/-- The field names _parse_artist populates at a given format. -/
def artistKeys (f : DataFormat) : List String :=
  let base := ["id", "name", "uri", "href", "external_urls"]
  let base := if f = .compact ∨ f = .full then
      base ++ ["images", "popularity"] else base
  if f = .full then base ++ ["genres", "followers"] else base

/-- The field names _parse_album populates at a given format. -/
def albumKeys (f : DataFormat) : List String :=
  let base := ["id", "name", "uri", "href", "external_urls", "artists"]
  let base := if f = .compact ∨ f = .full then
      base ++ ["images", "album_type", "total_tracks", "release_date"] else base
  if f = .full then
    base ++ ["release_date_precision", "genres", "popularity", "external_ids"]
  else base

/-- The field names _parse_track populates at a given format. -/
def trackKeys (f : DataFormat) : List String :=
  let base := ["id", "name", "uri", "href", "external_urls", "artists"]
  let base := if f = .compact ∨ f = .full then
      base ++ ["album", "duration_ms", "explicit", "popularity", "preview_url"]
    else base
  if f = .full then
    base ++ ["track_number", "disc_number", "is_local", "external_ids"]
  else base

/-- The field names _parse_playlist populates at a given format. -/
def playlistKeys (f : DataFormat) : List String :=
  let base := ["id", "name", "uri", "href", "external_urls"]
  let base := if f = .compact ∨ f = .full then
      base ++ ["images", "description", "owner", "public", "collaborative", "tracks"]
    else base
  if f = .full then base ++ ["followers", "snapshot_id"] else base

/-! ## Theorems -/

/-- Success of a bind in the Except monad decomposes into success of both
stages. -/
theorem exBind_ok {ε α β : Type} {x : Except ε α} {f : α → Except ε β} {b : β} :
    x >>= f = .ok b ↔ ∃ a, x = .ok a ∧ f a = .ok b := by
  cases x <;> simp [Bind.bind, Except.bind]

/-- pure in the Except monad produces ok of its argument. -/
theorem exPure_ok {ε α : Type} {a b : α} :
    (pure a : Except ε α) = .ok b ↔ a = b := by
  simp [pure, Except.pure]

/-- A successful artist parse populates exactly the fields of its format
tier, in construction order. -/
theorem parseArtist_keys (d : JVal) (f : DataFormat) (l : ArtistData)
    (h : parseArtist d f = .ok l) : l.map Prod.fst = artistKeys f := by
  cases f <;>
  · simp only [parseArtist, exBind_ok, exPure_ok] at h
    obtain ⟨a, _, b, _, c, _, e, _, hfin⟩ := h
    subst hfin
    simp [artistKeys]

/-- A successful album parse populates exactly the fields of its format
tier, in construction order. -/
theorem parseAlbum_keys (d : JVal) (f : DataFormat) (l : AlbumData)
    (h : parseAlbum d f = .ok l) : l.map Prod.fst = albumKeys f := by
  cases f <;>
  · simp only [parseAlbum, exBind_ok, exPure_ok] at h
    obtain ⟨a, _, b, _, c, _, e, _, ra, _, as, _, hfin⟩ := h
    subst hfin
    simp [albumKeys]

/-- A successful playlist parse populates exactly the fields of its format
tier, in construction order. -/
theorem parsePlaylist_keys (d : JVal) (f : DataFormat) (l : PlaylistData)
    (h : parsePlaylist d f = .ok l) : l.map Prod.fst = playlistKeys f := by
  cases f <;>
  · simp only [parsePlaylist, exBind_ok, exPure_ok] at h
    obtain ⟨a, _, b, _, c, _, e, _, hfin⟩ := h
    subst hfin
    simp [playlistKeys]

/-- A successful track parse populates exactly the fields of its format
tier, in construction order. -/
theorem parseTrack_keys (d : JVal) (f : DataFormat) (l : TrackData)
    (h : parseTrack d f = .ok l) : l.map Prod.fst = trackKeys f := by
  cases f with
  | minimal =>
    simp [parseTrack, exBind_ok, exPure_ok, -bind_pure_comp] at h
    obtain ⟨a, _, b, _, c, _, e, _, ra, _, as, _, hfin⟩ := h
    subst hfin
    simp [trackKeys]
  | raw =>
    simp [parseTrack, exBind_ok, exPure_ok, -bind_pure_comp] at h
    obtain ⟨a, _, b, _, c, _, e, _, ra, _, as, _, hfin⟩ := h
    subst hfin
    simp [trackKeys]
  | compact =>
    simp [parseTrack, exBind_ok, exPure_ok, -bind_pure_comp] at h
    obtain ⟨a, _, b, _, c, _, e, _, ra, _, as, _, af, _, hfin⟩ := h
    subst hfin
    simp [trackKeys]
  | full =>
    simp [parseTrack, exBind_ok, exPure_ok, -bind_pure_comp] at h
    obtain ⟨a, _, b, _, c, _, e, _, ra, _, as, _, af, _, hfin⟩ := h
    subst hfin
    simp [trackKeys]

/-- Claim C1: for every JSON object raw and every object type, normalizing
with format RAW returns the input object unchanged, whether or not the
input is a well-formed catalog object. -/
theorem raw_format_returns_input_unchanged (d : JVal) (ty : SpotifyObjectType) :
    parseObject d ty .raw = .raw d := by
  simp [parseObject]

/-- Each DataFormat value string is already lowercase. -/
theorem value_pyLower (f : DataFormat) : pyLower f.value = f.value := by
  cases f <;> rfl

/-- DataFormat resolution reduces to a single lookup of the lowercased
input among the member values: the exact-match first pass of the enum call
agrees with the case-insensitive fallback of CaseInsensitiveStrEnum. -/
theorem fromString_eq_lower (s : String) :
    DataFormat.fromString s =
      DataFormat.members.find? (fun f => f.value == pyLower s) := by
  unfold DataFormat.fromString
  by_cases h1 : "minimal" = s
  · subst h1; rfl
  by_cases h2 : "compact" = s
  · subst h2; rfl
  by_cases h3 : "full" = s
  · subst h3; rfl
  by_cases h4 : "raw" = s
  · subst h4; rfl
  have e1 : (("minimal" : String) == s) = false := by simpa using h1
  have e2 : (("compact" : String) == s) = false := by simpa using h2
  have e3 : (("full" : String) == s) = false := by simpa using h3
  have e4 : (("raw" : String) == s) = false := by simpa using h4
  simp only [DataFormat.members, List.find?, DataFormat.value, e1, e2, e3, e4]
  rfl

/-- Every DataFormat value string is one of the four tier names. -/
theorem value_mem_names (f : DataFormat) :
    f.value ∈ (["minimal", "compact", "full", "raw"] : List String) := by
  cases f <;> simp [DataFormat.value]

/-- Claim C5: format resolution is case-insensitive and total over the
four tier names only: every string whose lowercase form is one of minimal,
compact, full, raw resolves to the corresponding tier, and every other
string fails resolution (ValueError, modelled as none) instead of
defaulting. -/
theorem format_resolution_case_insensitive_total (s : String) :
    (pyLower s = "minimal" → DataFormat.fromString s = some .minimal) ∧
    (pyLower s = "compact" → DataFormat.fromString s = some .compact) ∧
    (pyLower s = "full" → DataFormat.fromString s = some .full) ∧
    (pyLower s = "raw" → DataFormat.fromString s = some .raw) ∧
    (pyLower s ∉ (["minimal", "compact", "full", "raw"] : List String) →
      DataFormat.fromString s = none) := by
  refine ⟨?_, ?_, ?_, ?_, ?_⟩ <;> intro h <;> rw [fromString_eq_lower]
  · rw [h]; rfl
  · rw [h]; rfl
  · rw [h]; rfl
  · rw [h]; rfl
  · apply List.find?_eq_none.mpr
    intro f _
    simp only [beq_iff_eq, Bool.not_eq_true]
    intro hc
    exact absurd (hc ▸ value_mem_names f) h

/-- Witness for C5 at concrete inputs: the three spellings of compact all
resolve to the COMPACT tier and the string bogus fails resolution. -/
theorem format_resolution_case_insensitive_total_witness :
    DataFormat.fromString "Compact" = some .compact ∧
    DataFormat.fromString "COMPACT" = some .compact ∧
    DataFormat.fromString "compact" = some .compact ∧
    DataFormat.fromString "bogus" = none := by
  refine ⟨?_, ?_, ?_, ?_⟩
  · exact (format_resolution_case_insensitive_total "Compact").2.1 (by rfl)
  · exact (format_resolution_case_insensitive_total "COMPACT").2.1 (by rfl)
  · exact (format_resolution_case_insensitive_total "compact").2.1 (by rfl)
  · exact (format_resolution_case_insensitive_total "bogus").2.2.2.2 (by decide)

/-- Position of each tier in the fidelity ordering used by the spec. -/
def tierIndex : DataFormat → Nat
  | .minimal => 0
  | .compact => 1
  | .full => 2
  | .raw => 3

/-- The spec ordering MINIMAL below COMPACT below FULL; RAW is outside the
ordering. -/
def tierLe (f1 f2 : DataFormat) : Prop :=
  f1 ≠ .raw ∧ f2 ≠ .raw ∧ tierIndex f1 ≤ tierIndex f2

/-- Claim C2: for every raw input object, every object type among track,
artist, album, playlist, and every pair of formats F1 below F2 in the
ordering MINIMAL, COMPACT, FULL, the set of fields populated by the
normalizer at F1 is a subset of the set populated at F2 on the same
input. -/
theorem field_sets_monotone_across_tiers (d : JVal) (f1 f2 : DataFormat)
    (hle : tierLe f1 f2) :
    (∀ l1 l2, parseTrack d f1 = .ok l1 → parseTrack d f2 = .ok l2 →
      l1.map Prod.fst ⊆ l2.map Prod.fst) ∧
    (∀ l1 l2, parseArtist d f1 = .ok l1 → parseArtist d f2 = .ok l2 →
      l1.map Prod.fst ⊆ l2.map Prod.fst) ∧
    (∀ l1 l2, parseAlbum d f1 = .ok l1 → parseAlbum d f2 = .ok l2 →
      l1.map Prod.fst ⊆ l2.map Prod.fst) ∧
    (∀ l1 l2, parsePlaylist d f1 = .ok l1 → parsePlaylist d f2 = .ok l2 →
      l1.map Prod.fst ⊆ l2.map Prod.fst) := by
  obtain ⟨hr1, hr2, hidx⟩ := hle
  refine ⟨?_, ?_, ?_, ?_⟩ <;> intro l1 l2 e1 e2
  · rw [parseTrack_keys d f1 l1 e1, parseTrack_keys d f2 l2 e2]
    cases f1 <;> cases f2 <;> simp_all [tierIndex] <;> decide
  · rw [parseArtist_keys d f1 l1 e1, parseArtist_keys d f2 l2 e2]
    cases f1 <;> cases f2 <;> simp_all [tierIndex] <;> decide
  · rw [parseAlbum_keys d f1 l1 e1, parseAlbum_keys d f2 l2 e2]
    cases f1 <;> cases f2 <;> simp_all [tierIndex] <;> decide
  · rw [parsePlaylist_keys d f1 l1 e1, parsePlaylist_keys d f2 l2 e2]
    cases f1 <;> cases f2 <;> simp_all [tierIndex] <;> decide

/-- A well-formed minimal artist payload used as concrete test input. -/
def sampleArtistJ : JVal :=
  .obj [("id", .s "a1"), ("name", .s "Artist"), ("uri", .s "spotify:artist:a1"),
        ("href", .s "https://api/artists/a1")]

/-- A well-formed album payload used as concrete test input. -/
def sampleAlbumJ : JVal :=
  .obj [("id", .s "al1"), ("name", .s "Album"), ("uri", .s "spotify:album:al1"),
        ("href", .s "https://api/albums/al1"), ("artists", .arr [sampleArtistJ])]

/-- A well-formed track payload used as concrete test input. -/
def sampleTrackJ : JVal :=
  .obj [("id", .s "t1"), ("name", .s "Song"), ("uri", .s "spotify:track:t1"),
        ("href", .s "https://api/tracks/t1"), ("artists", .arr [sampleArtistJ]),
        ("album", sampleAlbumJ), ("duration_ms", .n 180000)]

/-- A well-formed playlist payload used as concrete test input. -/
def samplePlaylistJ : JVal :=
  .obj [("id", .s "p1"), ("name", .s "Mix"), ("uri", .s "spotify:playlist:p1"),
        ("href", .s "https://api/playlists/p1")]

/-- Witness for C2 at a concrete input: MINIMAL is below FULL and the field
set of the sample track normalized at MINIMAL is contained in its field set
at FULL. -/
theorem field_sets_monotone_across_tiers_witness :
    tierLe .minimal .full ∧
    ∃ l1 l2, parseTrack sampleTrackJ .minimal = .ok l1 ∧
      parseTrack sampleTrackJ .full = .ok l2 ∧
      l1.map Prod.fst ⊆ l2.map Prod.fst := by
  obtain ⟨l1, h1⟩ : ∃ l, parseTrack sampleTrackJ .minimal = .ok l := ⟨_, rfl⟩
  obtain ⟨l2, h2⟩ : ∃ l, parseTrack sampleTrackJ .full = .ok l := ⟨_, rfl⟩
  exact ⟨⟨by decide, by decide, by decide⟩, l1, l2, h1, h2,
    (field_sets_monotone_across_tiers sampleTrackJ .minimal .full
      ⟨by decide, by decide, by decide⟩).1 l1 l2 h1 h2⟩

/-- A missing key makes Python subscription raise: d[k] is KeyError on a
dict without the key and TypeError on a non-dict. -/
theorem pyIndex_error_of_not_hasKey (d : JVal) (k : String)
    (h : d.hasKey k = false) : ∃ e, d.pyIndex k = .error e := by
  cases d with
  | obj kvs =>
    refine ⟨"KeyError: " ++ k, ?_⟩
    simp only [JVal.hasKey] at h
    rw [← Bool.not_eq_true, List.any_eq_true] at h
    push_neg at h
    have hfind : List.find? (fun p => p.1 == k) kvs = none :=
      List.find?_eq_none.mpr h
    simp [JVal.pyIndex, JVal.find?, hfind]
  | null => exact ⟨_, rfl⟩
  | b x => exact ⟨_, rfl⟩
  | n x => exact ⟨_, rfl⟩
  | s x => exact ⟨_, rfl⟩
  | arr xs => exact ⟨_, rfl⟩

/-- An error result in the Except monad absorbs the rest of the chain. -/
theorem exBind_error {ε α β : Type} (e : ε) (f : α → Except ε β) :
    (Except.error e >>= f) = .error e := rfl

/-- Claim C3: at every non-RAW format, normalizing an object missing a
MINIMAL-tier required field (no id) makes the type-specific builder raise
(the failure class the spec names MalformedUpstreamObject) and the
normalizer then returns the raw object unchanged, substituting no
placeholder; normalizing an object missing only an optional tier field (no
genres at FULL) succeeds with that field absent. -/
theorem required_field_missing_fails_optional_missing_ok :
    (∀ d f, f ≠ DataFormat.raw → d.hasKey "id" = false →
      (∃ e, parseTrack d f = .error e) ∧
      (∃ e, parseArtist d f = .error e) ∧
      (∃ e, parseAlbum d f = .error e) ∧
      (∃ e, parsePlaylist d f = .error e) ∧
      (∀ ty, ty = SpotifyObjectType.track ∨ ty = .artist ∨ ty = .album ∨ ty = .playlist →
        parseObject d ty f = .raw d)) ∧
    (∀ d i nm u hr, d.pyIndex "id" = .ok i → d.pyIndex "name" = .ok nm →
      d.pyIndex "uri" = .ok u → d.pyIndex "href" = .ok hr →
      d.pyGet "genres" = none →
      ∃ l, parseArtist d .full = .ok l ∧ ("genres", (none : Option JVal)) ∈ l) := by
  constructor
  · intro d f hf hid
    obtain ⟨e, he⟩ := pyIndex_error_of_not_hasKey d "id" hid
    have htr : parseTrack d f = .error e := by
      simp only [parseTrack, he, exBind_error]
    have har : parseArtist d f = .error e := by
      simp only [parseArtist, he, exBind_error]
    have hal : parseAlbum d f = .error e := by
      simp only [parseAlbum, he, exBind_error]
    have hpl : parsePlaylist d f = .error e := by
      simp only [parsePlaylist, he, exBind_error]
    refine ⟨⟨e, htr⟩, ⟨e, har⟩, ⟨e, hal⟩, ⟨e, hpl⟩, ?_⟩
    intro ty hty
    rcases hty with rfl | rfl | rfl | rfl <;>
      simp [parseObject, hf, htr, har, hal, hpl]
  · intro d i nm u hr hi hnm hu hhr hg
    refine ⟨[("id", i), ("name", nm), ("uri", u), ("href", hr),
      ("external_urls", d.pyGet "external_urls"),
      ("images", d.pyGet "images"), ("popularity", d.pyGet "popularity"),
      ("genres", d.pyGet "genres"), ("followers", d.pyGet "followers")], ?_, ?_⟩
    · simp only [parseArtist, hi, hnm, hu, hhr]
      rfl
    · simp [hg]

/-- Witness for C3 at concrete inputs: a track payload without id fails
its builder and passes through raw, and an artist payload without genres
normalizes at FULL with genres absent. -/
theorem required_field_missing_fails_optional_missing_ok_witness :
    (∃ e, parseTrack (.obj [("name", .s "NoId")]) .compact = .error e) ∧
    parseObject (.obj [("name", .s "NoId")]) .track .compact =
      .raw (.obj [("name", .s "NoId")]) ∧
    ∃ l, parseArtist sampleArtistJ .full = .ok l ∧
      ("genres", (none : Option JVal)) ∈ l := by
  refine ⟨?_, ?_, ?_⟩
  · exact ((required_field_missing_fails_optional_missing_ok.1
      (.obj [("name", .s "NoId")]) .compact (by decide) (by decide)).1)
  · exact ((required_field_missing_fails_optional_missing_ok.1
      (.obj [("name", .s "NoId")]) .compact (by decide) (by decide)).2.2.2.2
      .track (Or.inl rfl))
  · exact required_field_missing_fails_optional_missing_ok.2
      sampleArtistJ _ _ _ _ rfl rfl rfl rfl rfl

/-- Claim C4: batch normalization is fault-isolating: the normalized list
has the same length as the input, an item whose builder raises appears as
its unmodified raw form, and an item whose builder succeeds appears fully
normalized at the requested format. -/
theorem batch_normalization_fault_isolating (items : List JVal) (f : DataFormat)
    (hf : f ≠ DataFormat.raw) :
    (batchParse items .track f).length = items.length ∧
    ∀ i (hi : i < items.length) (hi2 : i < (batchParse items .track f).length),
      (∀ e, parseTrack (items.get ⟨i, hi⟩) f = .error e →
        (batchParse items .track f).get ⟨i, hi2⟩ = .raw (items.get ⟨i, hi⟩)) ∧
      (∀ t, parseTrack (items.get ⟨i, hi⟩) f = .ok t →
        (batchParse items .track f).get ⟨i, hi2⟩ = .track t) := by
  refine ⟨by simp [batchParse], ?_⟩
  intro i hi hi2
  constructor
  · intro e he
    rw [List.get_eq_getElem] at he
    simp [batchParse, parseObject, hf, he]
  · intro t ht
    rw [List.get_eq_getElem] at ht
    simp [batchParse, parseObject, hf, ht]

/-- A track payload with no id field, used as concrete malformed input. -/
def missingIdTrackJ : JVal := .obj [("name", .s "Broken")]

/-- Five raw track payloads, the third of which is missing its id. -/
def badBatch : List JVal :=
  [sampleTrackJ, sampleTrackJ, missingIdTrackJ, sampleTrackJ, sampleTrackJ]

/-- Witness for C4 at the concrete five-item batch from the spec example:
the result keeps all five entries, the third entry is the unmodified raw
payload, and the first entry is a fully normalized track. -/
theorem batch_normalization_fault_isolating_witness :
    (batchParse badBatch .track .compact).length = 5 ∧
    (batchParse badBatch .track .compact).get
        ⟨2, by simp [batchParse, badBatch]⟩ = .raw missingIdTrackJ ∧
    ∃ t, parseTrack sampleTrackJ .compact = .ok t ∧
      (batchParse badBatch .track .compact).get
        ⟨0, by simp [batchParse, badBatch]⟩ = .track t := by
  have hmain := batch_normalization_fault_isolating badBatch .compact (by decide)
  refine ⟨?_, ?_, ?_⟩
  · simpa [badBatch] using hmain.1
  · exact (hmain.2 2 (by simp [badBatch]) (by simp [batchParse, badBatch])).1 _ rfl
  · obtain ⟨t, ht⟩ : ∃ t, parseTrack sampleTrackJ .compact = .ok t := ⟨_, rfl⟩
    exact ⟨t, ht,
      (hmain.2 0 (by simp [badBatch]) (by simp [batchParse, badBatch])).2 t ht⟩

/-- Claim C6: for every raw Track or Album payload and every non-RAW
format, the nested artist list is normalized at MINIMAL fidelity regardless
of the outer format; for Track the nested album is likewise normalized at
MINIMAL; and the recursion is exactly one level deep: a nested minimal
artist record carries only the five plain MINIMAL fields and no further
normalized object. -/
theorem nested_references_normalized_minimal :
    (∀ d f l, f ≠ DataFormat.raw → parseTrack d f = .ok l →
      ∃ ra arts, (d.pyGetD "artists" (.arr [])).pyIter = .ok ra ∧
        ra.mapM (fun a => parseArtist a .minimal) = .ok arts ∧
        ("artists", TrackFV.artists arts) ∈ l) ∧
    (∀ d f l av al, (f = .compact ∨ f = .full) → parseTrack d f = .ok l →
      d.pyGet "album" = some av → av.truthy = true →
      parseAlbum av .minimal = .ok al →
      ("album", TrackFV.album (some al)) ∈ l) ∧
    (∀ d f l, f ≠ DataFormat.raw → parseAlbum d f = .ok l →
      ∃ ra arts, (d.pyGetD "artists" (.arr [])).pyIter = .ok ra ∧
        ra.mapM (fun a => parseArtist a .minimal) = .ok arts ∧
        ("artists", AlbumFV.artists arts) ∈ l) ∧
    (∀ x a, parseArtist x .minimal = .ok a →
      a.map Prod.fst = ["id", "name", "uri", "href", "external_urls"]) := by
  refine ⟨?_, ?_, ?_, ?_⟩
  · intro d f l hf h
    cases f with
    | raw => exact absurd rfl hf
    | minimal =>
      simp [parseTrack, exBind_ok, exPure_ok, -bind_pure_comp] at h
      obtain ⟨a, _, b, _, c, _, e, _, ra, hra, as, has, hfin⟩ := h
      subst hfin
      exact ⟨ra, as, hra, has, by simp⟩
    | compact =>
      simp [parseTrack, exBind_ok, exPure_ok, -bind_pure_comp] at h
      obtain ⟨a, _, b, _, c, _, e, _, ra, hra, as, has, af, _, hfin⟩ := h
      subst hfin
      exact ⟨ra, as, hra, has, by simp⟩
    | full =>
      simp [parseTrack, exBind_ok, exPure_ok, -bind_pure_comp] at h
      obtain ⟨a, _, b, _, c, _, e, _, ra, hra, as, has, af, _, hfin⟩ := h
      subst hfin
      exact ⟨ra, as, hra, has, by simp⟩
  · intro d f l av al hcf h hav ht hal
    rcases hcf with rfl | rfl <;>
    · simp [parseTrack, exBind_ok, exPure_ok, -bind_pure_comp] at h
      obtain ⟨a, _, b, _, c, _, e, _, ra, hra, as, has, af, haf, hfin⟩ := h
      simp [trackAlbumField, hav, ht, hal, exBind_ok, exPure_ok,
        -bind_pure_comp] at haf
      subst haf
      subst hfin
      simp
  · intro d f l hf h
    cases f with
    | raw => exact absurd rfl hf
    | minimal =>
      simp [parseAlbum, exBind_ok, exPure_ok, -bind_pure_comp] at h
      obtain ⟨a, _, b, _, c, _, e, _, ra, hra, as, has, hfin⟩ := h
      subst hfin
      exact ⟨ra, as, hra, has, by simp⟩
    | compact =>
      simp [parseAlbum, exBind_ok, exPure_ok, -bind_pure_comp] at h
      obtain ⟨a, _, b, _, c, _, e, _, ra, hra, as, has, hfin⟩ := h
      subst hfin
      exact ⟨ra, as, hra, has, by simp⟩
    | full =>
      simp [parseAlbum, exBind_ok, exPure_ok, -bind_pure_comp] at h
      obtain ⟨a, _, b, _, c, _, e, _, ra, hra, as, has, hfin⟩ := h
      subst hfin
      exact ⟨ra, as, hra, has, by simp⟩
  · intro x a h
    rw [parseArtist_keys x .minimal a h]
    rfl

/-- Witness for C6 at the concrete sample track, outer format FULL: the
nested artists are the MINIMAL parses of the raw artist entries, the nested
album is the MINIMAL parse of the raw album, and the minimal artist record
carries exactly the five MINIMAL fields. -/
theorem nested_references_normalized_minimal_witness :
    ∃ l al a,
      parseTrack sampleTrackJ .full = .ok l ∧
      (∃ ra arts, (sampleTrackJ.pyGetD "artists" (.arr [])).pyIter = .ok ra ∧
        ra.mapM (fun x => parseArtist x .minimal) = .ok arts ∧
        ("artists", TrackFV.artists arts) ∈ l) ∧
      parseAlbum sampleAlbumJ .minimal = .ok al ∧
      ("album", TrackFV.album (some al)) ∈ l ∧
      parseArtist sampleArtistJ .minimal = .ok a ∧
      a.map Prod.fst = ["id", "name", "uri", "href", "external_urls"] := by
  obtain ⟨l, hl⟩ : ∃ l, parseTrack sampleTrackJ .full = .ok l := ⟨_, rfl⟩
  obtain ⟨al, hal⟩ : ∃ al, parseAlbum sampleAlbumJ .minimal = .ok al := ⟨_, rfl⟩
  obtain ⟨a, ha⟩ : ∃ a, parseArtist sampleArtistJ .minimal = .ok a := ⟨_, rfl⟩
  exact ⟨l, al, a, hl,
    nested_references_normalized_minimal.1 sampleTrackJ .full l (by decide) hl,
    hal,
    nested_references_normalized_minimal.2.1 sampleTrackJ .full l sampleAlbumJ al
      (Or.inr rfl) hl rfl rfl hal,
    ha,
    nested_references_normalized_minimal.2.2.2 sampleArtistJ a ha⟩

/-- Claim C7: a batched audio-features request with more than 100 ids
fails with a batch-size validation error and attempts no upstream call
(second component false); with at most 100 ids validation passes and the
upstream call proceeds (second component true). -/
theorem audio_features_batch_size_validation (track_ids : List String)
    (upstream : List String → List (Option JVal)) :
    (track_ids.length > 100 →
      audioFeaturesTool track_ids upstream =
        (.error (.validation "Maximum 100 track IDs allowed per request"), false)) ∧
    (track_ids.length ≤ 100 →
      (audioFeaturesTool track_ids upstream).2 = true) := by
  constructor
  · intro h
    simp [audioFeaturesTool, h]
  · intro h
    have hno : ¬ track_ids.length > 100 := by omega
    rcases hg : getTrackAudioFeatures (upstream track_ids) with e | fs <;>
      simp [audioFeaturesTool, hno, hg]

/-- Witness for C7 at concrete inputs: 101 ids are rejected with no
upstream call, 100 ids proceed to the upstream call. -/
theorem audio_features_batch_size_validation_witness :
    audioFeaturesTool (List.replicate 101 "t") (fun ids => ids.map (fun _ => none)) =
      (.error (.validation "Maximum 100 track IDs allowed per request"), false) ∧
    (audioFeaturesTool (List.replicate 100 "t")
      (fun ids => ids.map (fun _ => none))).2 = true := by
  constructor
  · exact (audio_features_batch_size_validation _ _).1 (by simp)
  · exact (audio_features_batch_size_validation _ _).2 (by simp)

/-- Claim C8: an identifier-list parameter accepted as a delimited string
is split on commas and trimmed before use; an empty resulting list fails
validation, a list longer than 50 fails validation instead of being
truncated, and otherwise the upstream operation receives exactly the
parsed list. -/
theorem id_list_split_trim_and_bounds (s : String) :
    (parse_comma_separated_list s = [] →
      saveTracksTool s = .error (.validation "At least one track ID is required") ∧
      followArtistsTool s = .error (.validation "At least one artist ID is required")) ∧
    (parse_comma_separated_list s ≠ [] →
      (parse_comma_separated_list s).length > 50 →
      saveTracksTool s = .error (.validation "Maximum 50 track IDs allowed per request") ∧
      followArtistsTool s =
        .error (.validation "Maximum 50 artist IDs allowed per request")) ∧
    (parse_comma_separated_list s ≠ [] →
      (parse_comma_separated_list s).length ≤ 50 →
      saveTracksTool s = .ok (parse_comma_separated_list s) ∧
      followArtistsTool s = .ok (parse_comma_separated_list s)) := by
  refine ⟨?_, ?_, ?_⟩
  · intro h
    constructor <;> simp [saveTracksTool, followArtistsTool, h]
  · intro hne hlen
    have he : (parse_comma_separated_list s).isEmpty = false := by
      simpa [List.isEmpty_iff] using hne
    constructor <;> simp [saveTracksTool, followArtistsTool, he, hlen]
  · intro hne hlen
    have he : (parse_comma_separated_list s).isEmpty = false := by
      simpa [List.isEmpty_iff] using hne
    have hno : ¬ (parse_comma_separated_list s).length > 50 := by omega
    constructor <;> simp [saveTracksTool, followArtistsTool, he, hno]

set_option maxRecDepth 4000 in
/-- Witness for C8 at concrete inputs: a three-id string with stray spaces
is split and trimmed and proceeds, the empty string fails the emptiness
check, and a 51-id string fails the batch bound. -/
theorem id_list_split_trim_and_bounds_witness :
    saveTracksTool "a, b ,c" = .ok ["a", "b", "c"] ∧
    saveTracksTool "" = .error (.validation "At least one track ID is required") ∧
    followArtistsTool "x,x,x,x,x,x,x,x,x,x,x,x,x,x,x,x,x,x,x,x,x,x,x,x,x,x,x,x,x,x,x,x,x,x,x,x,x,x,x,x,x,x,x,x,x,x,x,x,x,x,x" =
      .error (.validation "Maximum 50 artist IDs allowed per request") := by
  refine ⟨?_, ?_, ?_⟩
  · exact ((id_list_split_trim_and_bounds "a, b ,c").2.2
      (by decide) (by decide)).1
  · exact ((id_list_split_trim_and_bounds "").1 (by decide)).1
  · exact ((id_list_split_trim_and_bounds _).2.1 (by decide) (by decide)).2

/-- getTrackAudioFeatures returns exactly the non-None entries, in order,
whenever every non-None entry is a truthy, schema-complete features
dict. -/
theorem getTrackAudioFeatures_eq (rs : List (Option JVal))
    (hwf : ∀ v ∈ rs, ∀ x, v = some x →
      x.truthy = true ∧ mkAudioFeatures x = .ok x) :
    getTrackAudioFeatures rs = .ok (rs.filterMap id) := by
  induction rs with
  | nil => rfl
  | cons r rest ih =>
    have ihr := ih (fun v hv x hx => hwf v (List.mem_cons_of_mem r hv) x hx)
    cases r with
    | none => simpa [getTrackAudioFeatures] using ihr
    | some v =>
      obtain ⟨ht, hmk⟩ := hwf (some v) (List.mem_cons_self _ _) v rfl
      simp [getTrackAudioFeatures, ht, hmk, ihr, exBind_ok, exPure_ok]

/-- Claim C10: a batched audio-features request silently drops tracks for
which the upstream returns no features: when the upstream reply has one
entry per requested id and every present entry is a well-formed features
dict, the returned list is exactly the non-None entries in upstream order,
its length is at most the number of ids requested, and no error or
placeholder is produced for the missing tracks. -/
theorem audio_features_drops_missing_entries (ids : List String)
    (upstream : List String → List (Option JVal))
    (hlen : (upstream ids).length = ids.length)
    (hwf : ∀ v ∈ upstream ids, ∀ x, v = some x →
      x.truthy = true ∧ mkAudioFeatures x = .ok x) :
    getTrackAudioFeatures (upstream ids) = .ok ((upstream ids).filterMap id) ∧
    ((upstream ids).filterMap id).length ≤ ids.length := by
  refine ⟨getTrackAudioFeatures_eq (upstream ids) hwf, ?_⟩
  calc ((upstream ids).filterMap id).length
      ≤ (upstream ids).length := List.length_filterMap_le id (upstream ids)
    _ = ids.length := hlen

/-- A schema-complete audio-features payload used as concrete input. -/
def sampleFeaturesJ : JVal :=
  .obj [("id", .s "t1"), ("danceability", .n 1), ("energy", .n 1),
    ("key", .n 5), ("loudness", .n (-7)), ("mode", .n 1),
    ("speechiness", .n 1), ("acousticness", .n 1), ("instrumentalness", .n 1),
    ("liveness", .n 1), ("valence", .n 1), ("tempo", .n 120),
    ("duration_ms", .n 180000), ("time_signature", .n 4)]

/-- Witness for C10 at a concrete input: three ids requested, the upstream
returns features for the first and third only, and the result is the two
feature dicts in order, strictly fewer than the three ids, with no
error. -/
theorem audio_features_drops_missing_entries_witness :
    getTrackAudioFeatures
        ((fun _ => [some sampleFeaturesJ, none, some sampleFeaturesJ])
          (["t1", "t2", "t3"] : List String)) =
      .ok [sampleFeaturesJ, sampleFeaturesJ] ∧
    (2 : Nat) ≤ 3 := by
  have h := audio_features_drops_missing_entries ["t1", "t2", "t3"]
    (fun _ => [some sampleFeaturesJ, none, some sampleFeaturesJ])
    rfl
    (by
      intro v hv x hx
      simp only [List.mem_cons, List.not_mem_nil, or_false] at hv
      rcases hv with rfl | rfl | rfl
      · cases hx
        exact ⟨rfl, rfl⟩
      · cases hx
      · cases hx
        exact ⟨rfl, rfl⟩)
  exact ⟨h.1, by omega⟩

/-- ok on the left of a bind steps to the continuation. -/
theorem exOk_bind {ε α β : Type} (a : α) (f : α → Except ε β) :
    (Except.ok a >>= f) = f a := rfl

/-- Functor map over ok in the Except monad. -/
theorem exMap_okval {ε α β : Type} (f : α → β) (a : α) :
    (f <$> (Except.ok a : Except ε α)) = .ok (f a) := rfl

/-- Lookup in a cons cell of a string-keyed association list. -/
theorem dictGet_cons {α : Type} (p : String × α) (t : List (String × α))
    (k : String) :
    dictGet (p :: t) k = if p.1 == k then some p.2 else dictGet t k := by
  by_cases h : p.1 == k
  · simp [dictGet, List.find?_cons_of_pos _ h, h]
  · simp [dictGet, List.find?_cons_of_neg _ h, h]

/-- Reading back the key just written by dictSet. -/
theorem dictGet_dictSet_self {α : Type} (l : List (String × α)) (k : String)
    (v : α) : dictGet (dictSet l k v) k = some v := by
  induction l with
  | nil => simp [dictSet, dictGet_cons]
  | cons p t ih =>
    by_cases h : p.1 == k
    · simp [dictSet, h, dictGet_cons]
    · simp [dictSet, h, dictGet_cons, ih]

/-- dictSet leaves every other key unchanged. -/
theorem dictGet_dictSet_ne {α : Type} (l : List (String × α)) (k k2 : String)
    (v : α) (h : k2 ≠ k) : dictGet (dictSet l k v) k2 = dictGet l k2 := by
  have hkk : (k == k2) = false := by
    simp only [beq_eq_false_iff_ne]
    exact fun hc => h hc.symm
  induction l with
  | nil => simp [dictSet, dictGet_cons, dictGet, hkk]
  | cons p t ih =>
    by_cases hp : p.1 == k
    · have hpk : p.1 = k := by simpa using hp
      simp [dictSet, hp, dictGet_cons, hkk, hpk]
    · simp [dictSet, hp, dictGet_cons, ih]

/-- The per-type slice of the upstream search payload: the pluralized key
is present and holds a dict whose items iterate to the given list and
whose advertised total reads as the given integer. -/
def subItemsTotal (results : JVal) (ty : SpotifyObjectType)
    (items : List JVal) (total : Int) : Prop :=
  results.hasKey (ty.value ++ "s") = true ∧
  ∃ sub itemsV totalV,
    results.pyIndex (ty.value ++ "s") = .ok sub ∧
    pyIndexO sub "items" = .ok itemsV ∧
    pyIterO itemsV = .ok items ∧
    pyIndexO sub "total" = .ok totalV ∧
    pyAsInt totalV = .ok total

/-- A well-formed per-type slice makes searchStep return its normalized
items and its advertised total. -/
theorem searchStep_of_subItemsTotal (results : JVal) (ty : SpotifyObjectType)
    (format : DataFormat) (items : List JVal) (total : Int)
    (h : subItemsTotal results ty items total) :
    searchStep results ty format =
      .ok (some (items.map (fun it => parseObject it ty format), total)) := by
  obtain ⟨hk, sub, itemsV, totalV, hsub, hitems, hiter, htotal, hint⟩ := h
  simp [searchStep, hk, hsub, hitems, hiter, htotal, hint, exOk_bind,
    exMap_okval]

/-- Key injectivity of the pluralized slot names. -/
theorem slotKey_injective (t1 t2 : SpotifyObjectType)
    (h : t1.value ++ "s" = t2.value ++ "s") : t1 = t2 := by
  revert h
  cases t1 <;> cases t2 <;> decide

/-- Specification of the per-type loop of search_music: it accumulates the
sum of advertised totals, writes each requested slot, and leaves all other
keys of the accumulator untouched. -/
theorem searchGo_spec (results : JVal) (format : DataFormat)
    (itemsOf : SpotifyObjectType → List JVal)
    (totalOf : SpotifyObjectType → Int) :
    ∀ (types : List SpotifyObjectType) (acc : List (String × List Parsed))
      (tot : Int),
    (∀ ty ∈ types, subItemsTotal results ty (itemsOf ty) (totalOf ty)) →
    ∃ data,
      searchGo results format types acc tot =
        .ok (data, tot + (types.map totalOf).sum) ∧
      (∀ k, (∀ ty ∈ types, ty.value ++ "s" ≠ k) →
        dictGet data k = dictGet acc k) ∧
      (∀ ty ∈ types, dictGet data (ty.value ++ "s") =
        some ((itemsOf ty).map (fun it => parseObject it ty format))) := by
  intro types
  induction types with
  | nil =>
    intro acc tot _
    exact ⟨acc, by simp [searchGo, exPure_ok], fun k _ => rfl,
      fun ty hty => absurd hty (List.not_mem_nil ty)⟩
  | cons ty rest ih =>
    intro acc tot hsub
    have hstep := searchStep_of_subItemsTotal results ty format
      (itemsOf ty) (totalOf ty) (hsub ty (List.mem_cons_self ty rest))
    obtain ⟨data, hgo, huntouched, hslots⟩ :=
      ih (dictSet acc (ty.value ++ "s")
          ((itemsOf ty).map (fun it => parseObject it ty format)))
        (tot + totalOf ty)
        (fun tz hz => hsub tz (List.mem_cons_of_mem ty hz))
    refine ⟨data, ?_, ?_, ?_⟩
    · have : searchGo results format (ty :: rest) acc tot =
        searchGo results format rest
          (dictSet acc (ty.value ++ "s")
            ((itemsOf ty).map (fun it => parseObject it ty format)))
          (tot + totalOf ty) := by
        simp [searchGo, hstep, exOk_bind]
      rw [this, hgo]
      have harith : tot + totalOf ty + (rest.map totalOf).sum =
          tot + ((ty :: rest).map totalOf).sum := by
        simp [List.map_cons, List.sum_cons]
        ring
      rw [harith]
    · intro k hk
      have h1 : ∀ tz ∈ rest, tz.value ++ "s" ≠ k :=
        fun tz hz => hk tz (List.mem_cons_of_mem ty hz)
      rw [huntouched k h1]
      exact dictGet_dictSet_ne acc (ty.value ++ "s") k _
        (fun hc => hk ty (List.mem_cons_self ty rest) hc.symm)
    · intro tz hz
      rcases List.mem_cons.mp hz with rfl | hzr
      · by_cases hmem : tz ∈ rest
        · exact hslots tz hmem
        · have h1 : ∀ tw ∈ rest, tw.value ++ "s" ≠ tz.value ++ "s" := by
            intro tw hw hc
            exact hmem (slotKey_injective tw tz hc ▸ hw)
          rw [huntouched (tz.value ++ "s") h1]
          exact dictGet_dictSet_self acc (tz.value ++ "s") _
      · exact hslots tz hzr

/-- The named slot of a SearchResponse for each of the four grouped object
types. -/
def slotOf (resp : SearchResponse) : SpotifyObjectType → Option (List Parsed)
  | .track => resp.tracks
  | .artist => resp.artists
  | .album => resp.albums
  | .playlist => resp.playlists
  | _ => none

/-- Claim C9: for every multi-type search over types among track, artist,
album, playlist whose upstream reply advertises per-type items and totals,
the assembled SearchResponse sums exactly the advertised totals of the
requested types into total_results, and places each requested type's
normalized items into its own named slot. -/
theorem search_totals_sum_and_slots
    (types : List SpotifyObjectType) (format : DataFormat) (results : JVal)
    (itemsOf : SpotifyObjectType → List JVal)
    (totalOf : SpotifyObjectType → Int)
    (hty : ∀ ty ∈ types,
      ty = SpotifyObjectType.track ∨ ty = .artist ∨ ty = .album ∨ ty = .playlist)
    (hsub : ∀ ty ∈ types, subItemsTotal results ty (itemsOf ty) (totalOf ty)) :
    ∃ resp, searchMusic types format results = .ok resp ∧
      resp.total_results = (types.map totalOf).sum ∧
      resp.format_used = format ∧
      ∀ ty ∈ types, slotOf resp ty =
        some ((itemsOf ty).map (fun it => parseObject it ty format)) := by
  obtain ⟨data, hgo, _, hslots⟩ :=
    searchGo_spec results format itemsOf totalOf types [] 0 hsub
  refine ⟨{ tracks := dictGet data "tracks", artists := dictGet data "artists",
            albums := dictGet data "albums", playlists := dictGet data "playlists",
            total_results := 0 + (types.map totalOf).sum,
            format_used := format }, ?_, by simp, rfl, ?_⟩
  · simp [searchMusic, hgo, exOk_bind, exPure_ok]
  · intro ty htym
    have hslot := hslots ty htym
    rcases hty ty htym with h | h | h | h <;> subst h <;>
      simpa [slotOf, SpotifyObjectType.value] using hslot

/-- An upstream search payload advertising 500 matching tracks and 3
matching playlists, used as concrete input. -/
def sampleSearchResults : JVal :=
  .obj [("tracks", .obj [("items", .arr [sampleTrackJ]), ("total", .n 500)]),
        ("playlists", .obj [("items", .arr [samplePlaylistJ]), ("total", .n 3)])]

/-- Witness for C9 at the concrete spec example: a track plus playlist
search over a payload advertising 500 tracks and 3 playlists yields
total_results 503, with each type in its own slot. -/
theorem search_totals_sum_and_slots_witness :
    ∃ resp,
      searchMusic [.track, .playlist] .compact sampleSearchResults = .ok resp ∧
      resp.total_results = 503 ∧
      resp.tracks = some [parseObject sampleTrackJ .track .compact] ∧
      resp.playlists = some [parseObject samplePlaylistJ .playlist .compact] := by
  obtain ⟨resp, hmk, htot, _, hslot⟩ := search_totals_sum_and_slots
    [.track, .playlist] .compact sampleSearchResults
    (fun ty => match ty with
      | .track => [sampleTrackJ]
      | .playlist => [samplePlaylistJ]
      | _ => [])
    (fun ty => match ty with
      | .track => 500
      | .playlist => 3
      | _ => 0)
    (by
      intro ty hty
      rcases List.mem_cons.mp hty with rfl | hty2
      · simp
      · rcases List.mem_cons.mp hty2 with rfl | h0
        · simp
        · exact absurd h0 (List.not_mem_nil ty))
    (by
      intro ty hty
      rcases List.mem_cons.mp hty with rfl | hty2
      · exact ⟨rfl, _, _, _, rfl, rfl, rfl, rfl, rfl⟩
      · rcases List.mem_cons.mp hty2 with rfl | h0
        · exact ⟨rfl, _, _, _, rfl, rfl, rfl, rfl, rfl⟩
        · exact absurd h0 (List.not_mem_nil ty))
  refine ⟨resp, hmk, by simpa using htot, ?_, ?_⟩
  · simpa [slotOf] using hslot .track (by simp)
  · simpa [slotOf] using hslot .playlist (by simp)

end SpotifyMCP
